import Mathlib

/-!
Shallow embedding of the reply-tree / vote-ledger core of the Chatroom
repository (backend/app/models/models.py, backend/app/crud/vote.py,
backend/app/crud/reply.py, backend/app/routers/votes.py,
backend/app/routers/replies.py), together with proofs checking the
natural-language specification against it.

Conventions: database state is passed explicitly (a `DB` record of row
lists); SQLAlchemy queries become list traversals in row order; Python
`None` becomes `Option.none`; timestamps are natural numbers; fallible
operations return `Except`.
-/

set_option autoImplicit false

namespace Chatroom

/-- Polarity enum (`VoteType` in models.py). -/
inductive VoteType
  | upvote
  | downvote
deriving DecidableEq, Repr

/-- The string payload of a `VoteType` enum member (Python `member.value`). -/
def VoteType.value : VoteType → String
  | .upvote => "upvote"
  | .downvote => "downvote"

/-- Python `VoteType(s)` conversion; only called on validated strings. -/
def VoteType.ofValue (s : String) : VoteType :=
  if s == "upvote" then .upvote else .downvote

/-- Values that appear in the equality tests of the vote-count properties in
models.py: either a `VoteType` enum member or a string. -/
inductive PyVal
  | enum (v : VoteType)
  | str (s : String)

/-- Python `==` on those values: a plain `enum.Enum` member equals another
member iff they are the same member, and never equals a string (plain enums do
not compare equal to their `.value`).  models.py compares
`v.vote_type == VoteType.upvote.value`, i.e. an enum member against a string. -/
def pyEq : PyVal → PyVal → Bool
  | .enum a, .enum b => a == b
  | .str a, .str b => a == b
  | _, _ => false

/-- One row of the `votes` table (models.py `Vote`). -/
structure Vote where
  id : Nat
  user_id : Nat
  post_id : Option Nat
  reply_id : Option Nat
  vote_type : VoteType
deriving DecidableEq, Repr

/-- One row of the `posts` table (models.py `Post`); fields not read by the
embedded operations are omitted. -/
structure Post where
  id : Nat
  title : String
  content : String
  channel_id : Nat
  author_id : Nat
  deleted_at : Option Nat
deriving DecidableEq, Repr

/-- One row of the `replies` table (models.py `Reply`). -/
structure Reply where
  id : Nat
  content : String
  post_id : Nat
  author_id : Nat
  parent_id : Option Nat
  created_at : Nat
  updated_at : Nat
  deleted_at : Option Nat
deriving DecidableEq, Repr

/-- The store: row lists in insertion order plus autoincrement counters. -/
structure DB where
  users : List Nat
  posts : List Post
  replies : List Reply
  votes : List Vote
  next_vote_id : Nat
  next_reply_id : Nat
deriving DecidableEq, Repr

/-- Python truthiness of an optional integer id (`if post_id:` in
crud/vote.py): both `None` and `0` are falsy. -/
def truthy : Option Nat → Bool
  | none => false
  | some n => n != 0

/-- Update the first element satisfying `p` (an ORM in-place update of the row
found by a `.first()` query). -/
def modifyFirst {α : Type} (p : α → Bool) (f : α → α) : List α → List α
  | [] => []
  | x :: xs => if p x then f x :: xs else x :: modifyFirst p f xs

/-! ## crud/vote.py -/

/-- crud/vote.py `get_user_vote`: the first vote row of this user on the given
target (both branches guard with Python truthiness of the id). -/
def get_user_vote (db : DB) (user_id : Nat) (post_id reply_id : Option Nat) :
    Option Vote :=
  if truthy post_id then
    db.votes.find? (fun v => v.user_id == user_id && v.post_id == post_id)
  else if truthy reply_id then
    db.votes.find? (fun v => v.user_id == user_id && v.reply_id == reply_id)
  else
    none

/-- Failure modes of `create_vote`: the `ValueError`s it raises, plus the
storage `IntegrityError` that an insert violating the models.py uniqueness
constraints raises at commit (crud/vote.py has no handler for it). -/
inductive VoteErr
  | invalidVoteType (s : String)
  | badTarget
  | postNotFound (pid : Nat)
  | replyNotFound (rid : Nat)
  | integrityError
deriving DecidableEq, Repr

/-- Insert of a vote row subject to the models.py uniqueness constraints
`unique_user_post_vote` and `unique_user_reply_vote` (SQL UNIQUE treats NULLs
as distinct, so a constraint only bites when the compared column is non-null
on both rows). -/
def insertVote (db : DB) (v : Vote) : Except VoteErr DB :=
  if db.votes.any (fun w =>
      w.user_id == v.user_id && w.post_id == v.post_id && v.post_id != none) then
    .error .integrityError
  else if db.votes.any (fun w =>
      w.user_id == v.user_id && w.reply_id == v.reply_id && v.reply_id != none) then
    .error .integrityError
  else
    .ok { db with votes := db.votes ++ [v], next_vote_id := db.next_vote_id + 1 }

/-- crud/vote.py `create_vote`, with its check-then-act structure made
explicit: every read (the existence checks and `get_user_vote`) runs against
`dbRead`, and the write is applied to `dbWrite`.  A sequential call is the
diagonal `create_vote` below; distinct snapshots express a concurrent write
committed between the read and the write.  The result pairs the new store
with the created or updated row, or `none` in the removal branch (the Python
function returns `None` there). -/
def create_vote_at (dbRead dbWrite : DB) (user_id : Nat) (vote_type : String)
    (post_id reply_id : Option Nat) : Except VoteErr (DB × Option Vote) :=
  if vote_type != VoteType.upvote.value && vote_type != VoteType.downvote.value then
    .error (.invalidVoteType vote_type)
  else if (post_id == none && reply_id == none) ||
      (post_id != none && reply_id != none) then
    .error .badTarget
  else if truthy post_id && !(dbRead.posts.any (fun p => some p.id == post_id)) then
    .error (.postNotFound (post_id.getD 0))
  else if truthy reply_id && !(dbRead.replies.any (fun r => some r.id == reply_id)) then
    .error (.replyNotFound (reply_id.getD 0))
  else
    match get_user_vote dbRead user_id post_id reply_id with
    | some existing =>
        if existing.vote_type.value == vote_type then
          .ok ({ dbWrite with
                   votes := dbWrite.votes.eraseP (fun v => v.id == existing.id) },
               none)
        else
          let updated := { existing with vote_type := VoteType.ofValue vote_type }
          .ok ({ dbWrite with
                   votes := modifyFirst (fun v => v.id == existing.id)
                     (fun v => { v with vote_type := VoteType.ofValue vote_type })
                     dbWrite.votes },
               some updated)
    | none =>
        let v : Vote := { id := dbWrite.next_vote_id, user_id := user_id,
                          post_id := post_id, reply_id := reply_id,
                          vote_type := VoteType.ofValue vote_type }
        (insertVote dbWrite v).map (fun db => (db, some v))

/-- crud/vote.py `create_vote` as called sequentially (read and write against
the same store). -/
def create_vote (db : DB) (user_id : Nat) (vote_type : String)
    (post_id reply_id : Option Nat) : Except VoteErr (DB × Option Vote) :=
  create_vote_at db db user_id vote_type post_id reply_id

/-- Result record of the two `get_vote_counts_for_*` functions. -/
structure VoteCounts where
  upvote_count : Nat
  downvote_count : Nat
  net_votes : Int
  total_votes : Nat
deriving DecidableEq, Repr

/-- crud/vote.py `get_vote_counts_for_post`: scan the current rows for the
post and count the two polarities. -/
def get_vote_counts_for_post (db : DB) (post_id : Nat) : VoteCounts :=
  let votes := db.votes.filter (fun v => v.post_id == some post_id)
  let upvotes := (votes.filter (fun v => v.vote_type == VoteType.upvote)).length
  let downvotes := (votes.filter (fun v => v.vote_type == VoteType.downvote)).length
  { upvote_count := upvotes, downvote_count := downvotes,
    net_votes := (upvotes : Int) - (downvotes : Int),
    total_votes := upvotes + downvotes }

/-- crud/vote.py `get_vote_counts_for_reply`. -/
def get_vote_counts_for_reply (db : DB) (reply_id : Nat) : VoteCounts :=
  let votes := db.votes.filter (fun v => v.reply_id == some reply_id)
  let upvotes := (votes.filter (fun v => v.vote_type == VoteType.upvote)).length
  let downvotes := (votes.filter (fun v => v.vote_type == VoteType.downvote)).length
  { upvote_count := upvotes, downvote_count := downvotes,
    net_votes := (upvotes : Int) - (downvotes : Int),
    total_votes := upvotes + downvotes }

/-! ## models.py vote-count properties -/

/-- The `votes` relationship of a post: rows whose `post_id` is this post. -/
def Post.votesOf (db : DB) (p : Post) : List Vote :=
  db.votes.filter (fun v => v.post_id == some p.id)

/-- models.py `Post.upvote_count`:
`len([v for v in self.votes if v.vote_type == VoteType.upvote.value])`.
The loaded `v.vote_type` is an enum member and the right-hand side is its
string `.value`, so the comparison is the enum-against-string case of `pyEq`. -/
def Post.upvote_count (db : DB) (p : Post) : Nat :=
  ((Post.votesOf db p).filter
    (fun v => pyEq (.enum v.vote_type) (.str VoteType.upvote.value))).length

/-- models.py `Post.downvote_count`. -/
def Post.downvote_count (db : DB) (p : Post) : Nat :=
  ((Post.votesOf db p).filter
    (fun v => pyEq (.enum v.vote_type) (.str VoteType.downvote.value))).length

/-- models.py `Post.net_votes` (upvotes minus downvotes). -/
def Post.net_votes (db : DB) (p : Post) : Int :=
  (Post.upvote_count db p : Int) - (Post.downvote_count db p : Int)

/-- models.py `Post.total_votes`. -/
def Post.total_votes (db : DB) (p : Post) : Nat :=
  Post.upvote_count db p + Post.downvote_count db p

/-- The `votes` relationship of a reply. -/
def Reply.votesOf (db : DB) (r : Reply) : List Vote :=
  db.votes.filter (fun v => v.reply_id == some r.id)

/-- models.py `Reply.upvote_count` (same enum-against-string comparison as the
post property). -/
def Reply.upvote_count (db : DB) (r : Reply) : Nat :=
  ((Reply.votesOf db r).filter
    (fun v => pyEq (.enum v.vote_type) (.str VoteType.upvote.value))).length

/-- models.py `Reply.downvote_count`. -/
def Reply.downvote_count (db : DB) (r : Reply) : Nat :=
  ((Reply.votesOf db r).filter
    (fun v => pyEq (.enum v.vote_type) (.str VoteType.downvote.value))).length

/-- models.py `Reply.net_votes`. -/
def Reply.net_votes (db : DB) (r : Reply) : Int :=
  (Reply.upvote_count db r : Int) - (Reply.downvote_count db r : Int)

/-! ## routers/votes.py -/

/-- Body of a successful vote route response: either `VoteRemovalResponse`
(carrying `previous_vote_type`) or `VoteResponse`. -/
inductive RouterVoteResp
  | removed (previous_vote_type : VoteType)
  | vote (v : Vote)
deriving DecidableEq, Repr

/-- HTTP outcome of an embedded route handler. -/
inductive RouterResult (α : Type)
  | ok (a : α)
  | notFound
  | badRequest
  | internalError
deriving DecidableEq, Repr

/-- routers/votes.py `vote_on_post`: 404 when the post row is missing, then
`create_vote`; a `None` result becomes `VoteRemovalResponse` whose
`previous_vote_type` is the polarity of the request, a vote result becomes
`VoteResponse`; `ValueError` becomes 400 and any other exception 500. -/
def vote_on_post (db : DB) (post_id : Nat) (user_id : Nat) (vt : VoteType) :
    RouterResult RouterVoteResp × DB :=
  if !(db.posts.any (fun p => p.id == post_id)) then
    (.notFound, db)
  else
    match create_vote db user_id vt.value (some post_id) none with
    | .ok (db', some v) => (.ok (.vote v), db')
    | .ok (db', none) => (.ok (.removed vt), db')
    | .error .integrityError => (.internalError, db)
    | .error _ => (.badRequest, db)

/-- routers/votes.py `vote_on_reply` (the reply-target twin; its existence
pre-check also does not filter on `deleted_at`). -/
def vote_on_reply (db : DB) (reply_id : Nat) (user_id : Nat) (vt : VoteType) :
    RouterResult RouterVoteResp × DB :=
  if !(db.replies.any (fun r => r.id == reply_id)) then
    (.notFound, db)
  else
    match create_vote db user_id vt.value none (some reply_id) with
    | .ok (db', some v) => (.ok (.vote v), db')
    | .ok (db', none) => (.ok (.removed vt), db')
    | .error .integrityError => (.internalError, db)
    | .error _ => (.badRequest, db)

/-! ## crud/reply.py -/

/-- Stable insertion step for ordering by `created_at`: the new row goes after
every row that was created no later. -/
def insertByCreated (r : Reply) : List Reply → List Reply
  | [] => [r]
  | x :: xs =>
    if x.created_at ≤ r.created_at then x :: insertByCreated r xs
    else r :: x :: xs

/-- `ORDER BY created_at` (and the Python stable `list.sort` by `created_at`):
a stable sort, ties keeping row order, matching the ordering guarantee of the
spec (ties broken by insertion order). -/
def orderByCreated (l : List Reply) : List Reply :=
  l.foldl (fun acc r => insertByCreated r acc) []

/-- The flat, chronologically ordered list of non-deleted replies of a post
(the query shared by `get_post_replies` and `get_post_replies_threaded`). -/
def repliesSorted (db : DB) (post_id : Nat) : List Reply :=
  orderByCreated (db.replies.filter
    (fun r => r.post_id == post_id && r.deleted_at == none))

/-- crud/reply.py `get_post_replies`: the flat listing with OFFSET and LIMIT. -/
def get_post_replies (db : DB) (post_id skip limit : Nat) : List Reply :=
  ((repliesSorted db post_id).drop skip).take limit

/-- One step of the loop in `get_post_replies_threaded` that attaches each
non-root reply to the `_children_cache` of its parent: a child is appended
(in list order) only when its parent id is a key of `reply_dict`, i.e. occurs
in the flat list. -/
def cacheStep (present : Nat → Bool) (acc : Nat → List Reply) (r : Reply) :
    Nat → List Reply :=
  match r.parent_id with
  | none => acc
  | some p =>
    if present p then (fun k => if k == p then acc k ++ [r] else acc k) else acc

/-- The finished `_children_cache` map of `get_post_replies_threaded`, keyed
by parent id. -/
def buildCaches (l : List Reply) : Nat → List Reply :=
  l.foldl (cacheStep (fun p => l.any (fun q => q.id == p))) (fun _ => [])

/-- The recursive `flatten_replies` of `get_post_replies_threaded`: each node
is emitted immediately followed by its flattened children list.  The Python
recursion is rendered with fuel, spent one unit per descent into a children
list; the caller passes the length of the flat list, which is enough whenever
every cached child sits strictly after its parent in the flat list (proved
below as fuel insensitivity). -/
def flattenF (cm : Nat → List Reply) : Nat → List Reply → List Reply
  | _, [] => []
  | 0, r :: rs => r :: flattenF cm 0 rs
  | fuel+1, r :: rs => (r :: flattenF cm fuel (cm r.id)) ++ flattenF cm (fuel+1) rs
termination_by fuel l => (fuel, l.length)

/-- crud/reply.py `get_post_replies_threaded` before pagination: root-level
replies (in flat order) flattened with the children caches. -/
def get_post_replies_threaded_full (db : DB) (post_id : Nat) : List Reply :=
  let l := repliesSorted db post_id
  flattenF (buildCaches l) l.length (l.filter (fun r => r.parent_id == none))

/-- crud/reply.py `get_post_replies_threaded`: the Python function computes the
full flattening and then slices `[skip : skip + limit]`. -/
def get_post_replies_threaded (db : DB) (post_id skip limit : Nat) : List Reply :=
  ((get_post_replies_threaded_full db post_id).drop skip).take limit

/-- crud/reply.py `get_reply_by_id`: the live row with this id, `none` when
missing or soft-deleted. -/
def get_reply_by_id (db : DB) (reply_id : Nat) : Option Reply :=
  db.replies.find? (fun r => r.id == reply_id && r.deleted_at == none)

/-- Input payload of reply creation (schemas ReplyCreate). -/
structure ReplyCreate where
  content : String
  author_id : Nat
  parent_id : Option Nat
deriving DecidableEq, Repr

/-- The `ValueError`s of crud/reply.py `create_reply`. -/
inductive ReplyErr
  | postNotFound
  | authorNotFound
  | parentNotFound
  | maxDepthExceeded
deriving DecidableEq, Repr

/-- models.py `Reply.parent` relationship: the row referenced by `parent_id`,
looked up with no filter on `deleted_at`. -/
def parentOf (db : DB) (r : Reply) : Option Reply :=
  match r.parent_id with
  | none => none
  | some p => db.replies.find? (fun q => q.id == p)

/-- models.py `Reply.depth`: recursion on the parent chain, rendered with
explicit fuel (the fixed fuel below covers every store in which parent rows
precede their children). -/
def depthF (db : DB) : Nat → Reply → Nat
  | 0, _ => 0
  | fuel+1, r =>
    match parentOf db r with
    | none => 0
    | some p => depthF db fuel p + 1

/-- models.py `Reply.depth` at the standing fuel. -/
def depth (db : DB) (r : Reply) : Nat :=
  depthF db (db.replies.length + 1) r

/-- models.py `Reply.can_reply_to`: `MAX_DEPTH = 10; return self.depth < MAX_DEPTH`. -/
def can_reply_to (db : DB) (r : Reply) : Bool :=
  depth db r < 10

/-- Appending the new reply row in `create_reply` (`db.add`/`commit`). -/
def insertReply (db : DB) (reply : ReplyCreate) (post_id now : Nat) : DB × Reply :=
  let r : Reply := { id := db.next_reply_id, content := reply.content,
                     post_id := post_id, author_id := reply.author_id,
                     parent_id := reply.parent_id, created_at := now,
                     updated_at := now, deleted_at := none }
  ({ db with replies := db.replies ++ [r], next_reply_id := db.next_reply_id + 1 }, r)

/-- crud/reply.py `create_reply`: post and author must exist; a truthy
`parent_id` must name a live reply of the same post whose `can_reply_to`
holds; then the row is inserted. -/
def create_reply (db : DB) (reply : ReplyCreate) (post_id now : Nat) :
    Except ReplyErr (DB × Reply) :=
  if !(db.posts.any (fun p => p.id == post_id)) then
    .error .postNotFound
  else if !(db.users.any (fun u => u == reply.author_id)) then
    .error .authorNotFound
  else if truthy reply.parent_id then
    match db.replies.find? (fun r => some r.id == reply.parent_id
        && r.post_id == post_id && r.deleted_at == none) with
    | none => .error .parentNotFound
    | some parent =>
      if !(can_reply_to db parent) then .error .maxDepthExceeded
      else .ok (insertReply db reply post_id now)
  else
    .ok (insertReply db reply post_id now)

/-- crud/reply.py `delete_reply`: find the live row via `get_reply_by_id` and
set only its `deleted_at`; `false` when there is no live row with this id. -/
def delete_reply (db : DB) (reply_id now : Nat) : Bool × DB :=
  match get_reply_by_id db reply_id with
  | none => (false, db)
  | some _ =>
    let rows := modifyFirst (fun r => r.id == reply_id && r.deleted_at == none)
      (fun r => { r with deleted_at := some now }) db.replies
    (true, { db with replies := rows })

/-- models.py `Reply.ancestors`: the while-loop up the parent chain, immediate
parent first, rendered with fuel. -/
def ancestorsF (db : DB) : Nat → Reply → List Reply
  | 0, _ => []
  | fuel+1, r =>
    match parentOf db r with
    | none => []
    | some p => p :: ancestorsF db fuel p

/-- models.py `Reply.ancestors` at the standing fuel. -/
def ancestors (db : DB) (r : Reply) : List Reply :=
  ancestorsF db (db.replies.length + 1) r

/-- models.py `Reply.children` relationship: rows whose `parent_id` names this
reply, ordered by `created_at`, with no filter on `deleted_at`. -/
def childrenRel (db : DB) (r : Reply) : List Reply :=
  orderByCreated (db.replies.filter (fun q => q.parent_id == some r.id))

/-- models.py `Reply.descendants`: each child followed by its own descendants,
rendered with fuel. -/
def descendantsF (db : DB) : Nat → Reply → List Reply
  | 0, _ => []
  | fuel+1, r => (childrenRel db r).flatMap (fun c => c :: descendantsF db fuel c)

/-- models.py `Reply.descendants` at the standing fuel. -/
def descendants (db : DB) (r : Reply) : List Reply :=
  descendantsF db (db.replies.length + 1) r

/-- models.py `Reply.thread_root`: walk to the reply with no parent. -/
def thread_rootF (db : DB) : Nat → Reply → Reply
  | 0, r => r
  | fuel+1, r =>
    match parentOf db r with
    | none => r
    | some p => thread_rootF db fuel p

/-- models.py `Reply.thread_root` at the standing fuel. -/
def thread_root (db : DB) (r : Reply) : Reply :=
  thread_rootF db (db.replies.length + 1) r

/-- models.py `Reply.siblings`: other roots of the same post when the reply
has no parent (`self.post.replies` is unordered and unfiltered), otherwise the
other children of the parent. -/
def siblings (db : DB) (r : Reply) : List Reply :=
  match parentOf db r with
  | none =>
    (db.replies.filter (fun q => q.post_id == r.post_id)).filter
      (fun q => (parentOf db q).isNone && q.id != r.id)
  | some p => (childrenRel db p).filter (fun q => q.id != r.id)

/-- crud/reply.py `get_reply_ancestors`: empty list when the reply is missing
or soft-deleted, otherwise the model property. -/
def get_reply_ancestors (db : DB) (reply_id : Nat) : List Reply :=
  match get_reply_by_id db reply_id with
  | none => []
  | some r => ancestors db r

/-- crud/reply.py `get_reply_descendants`. -/
def get_reply_descendants (db : DB) (reply_id : Nat) : List Reply :=
  match get_reply_by_id db reply_id with
  | none => []
  | some r => descendants db r

/-- crud/reply.py `get_reply_siblings`. -/
def get_reply_siblings (db : DB) (reply_id : Nat) : List Reply :=
  match get_reply_by_id db reply_id with
  | none => []
  | some r => siblings db r

/-- crud/reply.py `get_reply_thread`: root of the thread plus all its
descendants, stably sorted by creation time; empty when the reply is missing
or soft-deleted. -/
def get_reply_thread (db : DB) (reply_id : Nat) : List Reply :=
  match get_reply_by_id db reply_id with
  | none => []
  | some r =>
    let root := thread_root db r
    orderByCreated (root :: descendants db root)

/-! ## routers/replies.py navigation routes -/

/-- routers/replies.py ancestors route: the crud call returns a list (empty
when the reply is missing or deleted), so the `if ancestors is None` guard of
the handler never fires and the embedded handler always answers 200. -/
def router_reply_ancestors (db : DB) (reply_id : Nat) : RouterResult (List Reply) :=
  .ok (get_reply_ancestors db reply_id)

/-- routers/replies.py descendants route (same dead `is None` guard). -/
def router_reply_descendants (db : DB) (reply_id : Nat) : RouterResult (List Reply) :=
  .ok (get_reply_descendants db reply_id)

/-- routers/replies.py siblings route (same dead `is None` guard). -/
def router_reply_siblings (db : DB) (reply_id : Nat) : RouterResult (List Reply) :=
  .ok (get_reply_siblings db reply_id)

/-- routers/replies.py thread route: `if not thread_replies` holds exactly on
the empty list, which the crud returns iff the reply is missing or deleted. -/
def router_reply_thread (db : DB) (reply_id : Nat) : RouterResult (List Reply) :=
  let t := get_reply_thread db reply_id
  if t.isEmpty then .notFound else .ok t

/-! ## Derived notions used by the statements -/

/-- One requested cast, as the vote route hands it to `create_vote`. -/
structure CastReq where
  user : Nat
  vote_type : String
  post_id : Option Nat
  reply_id : Option Nat

/-- Replay a sequence of sequential casts against the store, keeping the
store unchanged when a cast errors. -/
def applyCasts (db : DB) : List CastReq → DB
  | [] => db
  | c :: cs =>
    match create_vote db c.user c.vote_type c.post_id c.reply_id with
    | .ok (db', _) => applyCasts db' cs
    | .error _ => applyCasts db cs

/-- Forget the soft-delete timestamp of a row (everything soft deletion may
change). -/
def stripDel (r : Reply) : Reply :=
  { r with deleted_at := none }

/-- The ids of a reply list. -/
def idsOf (l : List Reply) : List Nat :=
  l.map Reply.id

/-- Every listed reply that names a listed reply as parent occurs strictly
after it — the shape of a chronological listing in which parents are created
before their children. -/
abbrev ParentsBeforeChildren (l : List Reply) : Prop :=
  ∀ p ∈ l, ∀ c ∈ l, c.parent_id = some p.id → l.indexOf p < l.indexOf c

/-- The direct children of the reply id `k` as the spec words it: the listed
replies naming `k` as parent, in list order. -/
def specChildren (l : List Reply) (k : Nat) : List Reply :=
  l.filter (fun r => r.parent_id == some k)

/-- The threaded listing as the spec words it: the pre-order flattening, from
the root-level replies of the flat chronological list, over the id-to-children
map read off that list. -/
def threadedSpec (l : List Reply) : List Reply :=
  flattenF (specChildren l) l.length (l.filter (fun r => r.parent_id == none))

/-- A listed reply is rooted when its parent chain inside the list reaches a
root-level reply; the pre-order flattening can only reach rooted replies. -/
inductive RootedIn (l : List Reply) : Reply → Prop
  | root (r : Reply) : r ∈ l → r.parent_id = none → RootedIn l r
  | child (r p : Reply) : r ∈ l → p ∈ l → r.parent_id = some p.id →
      RootedIn l p → RootedIn l r

/-! ## Concrete stores used by the closed theorems and witnesses -/

/-- A reply row with defaulted content and author. -/
def mkReply (id : Nat) (parent : Option Nat) (created : Nat) : Reply :=
  { id := id, content := "c", post_id := 1, author_id := 1, parent_id := parent,
    created_at := created, updated_at := created, deleted_at := none }

/-- The post every concrete store uses. -/
def post1 : Post :=
  { id := 1, title := "t", content := "c", channel_id := 1, author_id := 1,
    deleted_at := none }

/-- A store holding a chain of ten replies, ids 1..10, reply `i+1` under
reply `i`; reply 10 computes depth 9. -/
def chainDB : DB :=
  { users := [1], posts := [post1],
    replies := (List.range 10).map
      (fun i => mkReply (i+1) (if i == 0 then none else some i) (i+1)),
    votes := [], next_vote_id := 1, next_reply_id := 11 }

/-- The depth-9 reply of `chainDB`. -/
def chainTop : Reply := mkReply 10 (some 9) 10

/-- A store with a single upvote by user 2 on post 1. -/
def singleUpvoteDB : DB :=
  { users := [1, 2], posts := [post1], replies := [],
    votes := [{ id := 1, user_id := 2, post_id := some 1, reply_id := none,
                vote_type := .upvote }],
    next_vote_id := 2, next_reply_id := 1 }

/-- The store of the repository test `test_vote_model.py`: three upvotes and
one downvote on post 1 by four distinct users. -/
def fourVotesDB : DB :=
  { users := [1, 2, 3, 4, 5], posts := [post1], replies := [],
    votes :=
      [{ id := 1, user_id := 2, post_id := some 1, reply_id := none, vote_type := .upvote },
       { id := 2, user_id := 3, post_id := some 1, reply_id := none, vote_type := .upvote },
       { id := 3, user_id := 4, post_id := some 1, reply_id := none, vote_type := .upvote },
       { id := 4, user_id := 5, post_id := some 1, reply_id := none, vote_type := .downvote }],
    next_vote_id := 5, next_reply_id := 1 }

/-- A store whose only reply (id 7) is soft-deleted, with one upvote on it. -/
def deletedReplyDB : DB :=
  { users := [1, 2], posts := [post1],
    replies := [{ mkReply 7 none 1 with deleted_at := some 5 }],
    votes := [{ id := 1, user_id := 2, post_id := none, reply_id := some 7,
                vote_type := .upvote }],
    next_vote_id := 2, next_reply_id := 8 }

/-- `deletedReplyDB` with the soft-delete flag of reply 7 cleared. -/
def liveReplyDB : DB :=
  { deletedReplyDB with replies := [mkReply 7 none 1] }

/-- A store where reply 1 is soft-deleted, reply 2 is its child, reply 3 is
a grandchild, and reply 4 is a second live root. -/
def orphanDB : DB :=
  { users := [1], posts := [post1],
    replies := [{ mkReply 1 none 1 with deleted_at := some 5 },
                mkReply 2 (some 1) 2, mkReply 3 (some 2) 3, mkReply 4 none 4],
    votes := [], next_vote_id := 1, next_reply_id := 5 }

/-- A store with no votes at all. -/
def emptyVotesDB : DB :=
  { users := [1], posts := [post1], replies := [], votes := [],
    next_vote_id := 1, next_reply_id := 1 }

/-- The write-time state of the race scenario: while the caller of
`create_vote` saw `emptyVotesDB`, a concurrent duplicate cast by the same
user on the same post has already committed. -/
def raceWriteDB : DB :=
  { users := [1], posts := [post1], replies := [],
    votes := [{ id := 1, user_id := 1, post_id := some 1, reply_id := none,
                vote_type := .upvote }],
    next_vote_id := 2, next_reply_id := 1 }

/-- A store with one post, one live reply, and user 2 holding an upvote on
each target, so every toggle branch is reachable on both target kinds. -/
def toggleDB : DB :=
  { users := [1, 2], posts := [post1],
    replies := [mkReply 7 none 1],
    votes :=
      [{ id := 1, user_id := 2, post_id := some 1, reply_id := none, vote_type := .upvote },
       { id := 2, user_id := 2, post_id := none, reply_id := some 7, vote_type := .upvote }],
    next_vote_id := 3, next_reply_id := 8 }

/-- The end-to-end scenario of the spec: post P with reply A (id 1, root) and
reply B (id 2) under A. -/
def scenarioDB : DB :=
  { users := [1], posts := [post1],
    replies := [mkReply 1 none 1, mkReply 2 (some 1) 2],
    votes := [], next_vote_id := 1, next_reply_id := 3 }

/-! ## Helper lemmas -/

theorem modifyFirst_length {α : Type} (p : α → Bool) (f : α → α) :
    ∀ l : List α, (modifyFirst p f l).length = l.length := by
  intro l
  induction l with
  | nil => rfl
  | cons x xs ih => cases hpx : p x <;> simp [modifyFirst, hpx, ih]

theorem mem_modifyFirst {α : Type} (p : α → Bool) (f : α → α) :
    ∀ l : List α, ∀ x ∈ modifyFirst p f l, x ∈ l ∨ ∃ y ∈ l, p y = true ∧ x = f y := by
  intro l
  induction l with
  | nil => intro x hx; cases hx
  | cons a as ih =>
    intro x hx
    cases hpa : p a with
    | true =>
      rw [modifyFirst, if_pos hpa] at hx
      rcases List.mem_cons.mp hx with hx | hx
      · exact Or.inr ⟨a, List.mem_cons_self a as, hpa, hx⟩
      · exact Or.inl (List.mem_cons_of_mem a hx)
    | false =>
      rw [modifyFirst, if_neg (by simp [hpa])] at hx
      rcases List.mem_cons.mp hx with hx | hx
      · exact Or.inl (hx ▸ List.mem_cons_self a as)
      · rcases ih x hx with h | ⟨y, hy, hpy, hxy⟩
        · exact Or.inl (List.mem_cons_of_mem a h)
        · exact Or.inr ⟨y, List.mem_cons_of_mem a hy, hpy, hxy⟩

theorem get_user_vote_eq_of_votes {db db' : DB} (h : db.votes = db'.votes)
    (u : Nat) (p r : Option Nat) : get_user_vote db u p r = get_user_vote db' u p r := by
  simp only [get_user_vote, h]

theorem VoteType.ofValue_value (vt : VoteType) : VoteType.ofValue vt.value = vt := by
  cases vt <;> rfl

theorem VoteType.beq_value (a b : VoteType) : (a.value == b.value) = (a == b) := by
  cases a <;> cases b <;> rfl

theorem VoteType.validation (vt : VoteType) :
    (vt.value != VoteType.upvote.value && vt.value != VoteType.downvote.value) = false := by
  cases vt <;> rfl

/-! ## C2 -/

/-- C2: the claimed depth boundary fails on the code.  In `chainDB` the reply
at depth 9 still satisfies `can_reply_to` (models.py tests `depth < 10` with
`MAX_DEPTH = 10`), so `create_reply` under it succeeds and the new child
computes depth 10 — while the claim (with the spec and the repository test
`test_threaded_replies.py`, which asserts `not replies[9].can_reply_to`)
requires creation under a depth-9 parent to fail with the max-depth error. -/
theorem C2_depth9_parent_accepted :
    depth chainDB chainTop = 9 ∧
    can_reply_to chainDB chainTop = true ∧
    (create_reply chainDB { content := "x", author_id := 1, parent_id := some 10 } 1 20).toOption.map
        (fun p => depth p.1 p.2) = some 10 ∧
    (create_reply chainDB { content := "x", author_id := 1, parent_id := some 10 } 1 20).isOk = true := by
  decide

/-! ## C4 -/

/-- C4: the two derivations of vote aggregates disagree.  The models.py
properties compare the enum-typed `vote_type` against the string
`VoteType.upvote.value`, which is always false for a plain enum, so the
entity-level counts are 0 on stores where the ledger aggregation counts the
rows: one upvote on post 1 gives 0 versus 1, the four-vote store of
`test_vote_model.py` gives 0/0/0 versus 3/1/2, and the reply upvote gives 0
versus 1. -/
theorem C4_model_and_ledger_disagree :
    Post.upvote_count singleUpvoteDB post1 = 0 ∧
    (get_vote_counts_for_post singleUpvoteDB 1).upvote_count = 1 ∧
    Post.upvote_count fourVotesDB post1 = 0 ∧
    Post.downvote_count fourVotesDB post1 = 0 ∧
    Post.net_votes fourVotesDB post1 = 0 ∧
    get_vote_counts_for_post fourVotesDB 1 =
      { upvote_count := 3, downvote_count := 1, net_votes := 2, total_votes := 4 } ∧
    Reply.upvote_count deletedReplyDB { mkReply 7 none 1 with deleted_at := some 5 } = 0 ∧
    (get_vote_counts_for_reply deletedReplyDB 7).upvote_count = 1 := by
  decide

/-! ## C7 -/

/-- C7: only the thread route reports a missing or soft-deleted reply as
NotFound.  For the id 999 (absent) and the id 7 (soft-deleted) the ancestors,
descendants and siblings routes answer 200 with an empty list — their
`is None` guard never fires because the crud returns `[]` — contradicting the
claim that every navigation read reports NotFound. -/
theorem C7_navigation_missing_not_404 :
    router_reply_ancestors deletedReplyDB 999 = .ok [] ∧
    router_reply_descendants deletedReplyDB 999 = .ok [] ∧
    router_reply_siblings deletedReplyDB 999 = .ok [] ∧
    router_reply_thread deletedReplyDB 999 = .notFound ∧
    router_reply_ancestors deletedReplyDB 7 = .ok [] ∧
    router_reply_descendants deletedReplyDB 7 = .ok [] ∧
    router_reply_siblings deletedReplyDB 7 = .ok [] ∧
    router_reply_thread deletedReplyDB 7 = .notFound := by
  decide

/-! ## C8 -/

/-- C8 counterexample: under a concurrent duplicate cast — the toggle read
ran against a store with no votes while a conflicting row for the same
(voter, post) pair is committed at write time — `create_vote` surfaces the
uniqueness violation as a hard error on the first occurrence; there is no
retry loop. -/
theorem C8_counterexample_violation_surfaced :
    create_vote_at emptyVotesDB raceWriteDB 1 "upvote" (some 1) none =
      .error .integrityError := by
  rfl

/-- C8 amended: `create_vote` performs a single check-then-act attempt.  For
every read snapshot in which the voter has no vote on the post and every
write-time store already holding a row for the same (voter, post) pair, the
insert hits the uniqueness constraint and the violation propagates to the
caller unretried. -/
theorem C8_race_single_attempt (dbRead dbWrite : DB) (user pid : Nat) (vt : VoteType)
    (hpid : pid ≠ 0)
    (hpost : dbRead.posts.any (fun p => some p.id == some pid) = true)
    (hread : get_user_vote dbRead user (some pid) none = none)
    (hconflict : ∃ w ∈ dbWrite.votes, w.user_id = user ∧ w.post_id = some pid) :
    create_vote_at dbRead dbWrite user vt.value (some pid) none =
      .error .integrityError := by
  obtain ⟨w, hw, hwu, hwp⟩ := hconflict
  have hins : dbWrite.votes.any (fun x =>
      x.user_id == user && x.post_id == some pid && ((some pid : Option Nat) != none)) = true := by
    refine List.any_eq_true.mpr ⟨w, hw, ?_⟩
    simp [hwu, hwp]
  simp [create_vote_at, VoteType.validation, truthy, hpid, hpost, hread,
    insertVote, hins]
  obtain ⟨p, hp, hpe⟩ := List.any_eq_true.mp hpost
  rw [if_neg]
  · rfl
  · intro hall
    exact hall p hp (by simpa using hpe)

/-- C8 witness for the amended statement at the concrete race fixture. -/
theorem C8_race_single_attempt_witness :
    create_vote_at emptyVotesDB raceWriteDB 1 VoteType.upvote.value (some 1) none =
      .error .integrityError :=
  C8_race_single_attempt emptyVotesDB raceWriteDB 1 1 .upvote (by decide) (by decide)
    (by decide)
    ⟨{ id := 1, user_id := 1, post_id := some 1, reply_id := none, vote_type := .upvote },
      by decide, rfl, rfl⟩

/-! ## C10 -/

/-- C10: Cast accepts a soft-deleted reply.  The reply existence check of
`create_vote` does not filter on `deleted_at`, so with the target reply
soft-deleted the toggle yields exactly the vote rows and result it would
yield were the reply live, even though `get_reply_by_id` — the lookup every
other reply-facing operation goes through — reports the reply as not found. -/
theorem C10_cast_on_soft_deleted_reply (db live : DB) (r : Reply) (user : Nat) (vt : VoteType)
    (hmem : r ∈ db.replies) (hdel : r.deleted_at ≠ none)
    (huniq : ∀ q ∈ db.replies, q.id = r.id → q = r)
    (hvotes : live.votes = db.votes) (hnext : live.next_vote_id = db.next_vote_id)
    (hlive : ∃ q ∈ live.replies, q.id = r.id) :
    get_reply_by_id db r.id = none ∧
    (create_vote db user vt.value none (some r.id)).map (fun p => (p.1.votes, p.2)) =
      (create_vote live user vt.value none (some r.id)).map (fun p => (p.1.votes, p.2)) := by
  constructor
  · refine List.find?_eq_none.mpr ?_
    intro q hq
    by_cases hid : q.id = r.id
    · have : q = r := huniq q hq hid
      subst this
      simp only [Bool.and_eq_true, beq_iff_eq, not_and]
      intro _
      exact fun h => hdel h
    · simp [hid]
  · have hex : db.replies.any (fun q => some q.id == some r.id) = true :=
      List.any_eq_true.mpr ⟨r, hmem, by simp⟩
    have hex' : live.replies.any (fun q => some q.id == some r.id) = true := by
      obtain ⟨q, hq, hqid⟩ := hlive
      exact List.any_eq_true.mpr ⟨q, hq, by simp [hqid]⟩
    have hgu : get_user_vote db user none (some r.id) =
        get_user_vote live user none (some r.id) :=
      (get_user_vote_eq_of_votes hvotes user none (some r.id)).symm
    simp only [create_vote, create_vote_at, hex, hex', hgu, hvotes, hnext,
      insertVote]
    cases hguv : get_user_vote live user none (some r.id) with
    | some v =>
      by_cases hA : ¬vt.value = VoteType.upvote.value ∧ ¬vt.value = VoteType.downvote.value
      · simp [truthy, hA]
      · by_cases hB : v.vote_type.value = vt.value
        · simp only [truthy, hA, hB, if_true, if_false, ite_false, ite_true]
          simp [hA, hB]
          rfl
        · simp only [truthy]
          simp [hA, hB]
          rfl
    | none =>
      by_cases hA : ¬vt.value = VoteType.upvote.value ∧ ¬vt.value = VoteType.downvote.value
      · simp [truthy, hA]
      · by_cases hB : ∃ x ∈ db.votes, x.user_id = user ∧ x.reply_id = some r.id
        · simp [truthy, hA, hB]
        · simp only [truthy]
          simp [hA, hB]
          rfl

/-- C10 witness: voting on the soft-deleted reply 7 behaves exactly as on
the live copy, while `get_reply_by_id` reports it missing. -/
theorem C10_cast_on_soft_deleted_reply_witness :
    get_reply_by_id deletedReplyDB 7 = none ∧
    (create_vote deletedReplyDB 2 VoteType.downvote.value none (some 7)).map
        (fun p => (p.1.votes, p.2)) =
      (create_vote liveReplyDB 2 VoteType.downvote.value none (some 7)).map
        (fun p => (p.1.votes, p.2)) :=
  C10_cast_on_soft_deleted_reply deletedReplyDB liveReplyDB
    { mkReply 7 none 1 with deleted_at := some 5 } 2 .downvote
    (by decide) (by decide) (by decide) rfl rfl
    ⟨mkReply 7 none 1, by decide, rfl⟩

/-! ## C3 -/

/-- Shared computation behind C3: the ledger aggregation for a post is the
row-by-row recount. -/
theorem vote_counts_post_recount (db : DB) (pid : Nat) :
    (get_vote_counts_for_post db pid).upvote_count =
      db.votes.countP (fun v => v.vote_type == VoteType.upvote && v.post_id == some pid) ∧
    (get_vote_counts_for_post db pid).downvote_count =
      db.votes.countP (fun v => v.vote_type == VoteType.downvote && v.post_id == some pid) := by
  constructor <;>
    simp [get_vote_counts_for_post, List.filter_filter, List.countP_eq_length_filter]

/-- Shared computation behind C3, reply target. -/
theorem vote_counts_reply_recount (db : DB) (rid : Nat) :
    (get_vote_counts_for_reply db rid).upvote_count =
      db.votes.countP (fun v => v.vote_type == VoteType.upvote && v.reply_id == some rid) ∧
    (get_vote_counts_for_reply db rid).downvote_count =
      db.votes.countP (fun v => v.vote_type == VoteType.downvote && v.reply_id == some rid) := by
  constructor <;>
    simp [get_vote_counts_for_reply, List.filter_filter, List.countP_eq_length_filter]

/-- C3: for every store and target, the aggregates are the counts obtained by
scanning the current vote rows — upvote and downvote counts are row counts,
net is their difference and total their sum — and therefore after replaying
any sequence of casts the aggregation still equals the from-scratch recount
of the resulting rows. -/
theorem C3_counts_recomputed_from_rows (db : DB) (pid rid : Nat) (cs : List CastReq) :
    (get_vote_counts_for_post db pid).upvote_count =
      db.votes.countP (fun v => v.vote_type == VoteType.upvote && v.post_id == some pid) ∧
    (get_vote_counts_for_post db pid).downvote_count =
      db.votes.countP (fun v => v.vote_type == VoteType.downvote && v.post_id == some pid) ∧
    (get_vote_counts_for_post db pid).net_votes =
      ((get_vote_counts_for_post db pid).upvote_count : Int) -
        ((get_vote_counts_for_post db pid).downvote_count : Int) ∧
    (get_vote_counts_for_post db pid).total_votes =
      (get_vote_counts_for_post db pid).upvote_count +
        (get_vote_counts_for_post db pid).downvote_count ∧
    (get_vote_counts_for_reply db rid).upvote_count =
      db.votes.countP (fun v => v.vote_type == VoteType.upvote && v.reply_id == some rid) ∧
    (get_vote_counts_for_reply db rid).downvote_count =
      db.votes.countP (fun v => v.vote_type == VoteType.downvote && v.reply_id == some rid) ∧
    (get_vote_counts_for_reply db rid).net_votes =
      ((get_vote_counts_for_reply db rid).upvote_count : Int) -
        ((get_vote_counts_for_reply db rid).downvote_count : Int) ∧
    (get_vote_counts_for_reply db rid).total_votes =
      (get_vote_counts_for_reply db rid).upvote_count +
        (get_vote_counts_for_reply db rid).downvote_count ∧
    (get_vote_counts_for_post (applyCasts db cs) pid).upvote_count =
      (applyCasts db cs).votes.countP
        (fun v => v.vote_type == VoteType.upvote && v.post_id == some pid) ∧
    (get_vote_counts_for_reply (applyCasts db cs) rid).downvote_count =
      (applyCasts db cs).votes.countP
        (fun v => v.vote_type == VoteType.downvote && v.reply_id == some rid) :=
  ⟨(vote_counts_post_recount db pid).1, (vote_counts_post_recount db pid).2,
   rfl, rfl,
   (vote_counts_reply_recount db rid).1, (vote_counts_reply_recount db rid).2,
   rfl, rfl,
   (vote_counts_post_recount (applyCasts db cs) pid).1,
   (vote_counts_reply_recount (applyCasts db cs) rid).2⟩

/-! ## C1 -/

/-- C1: the three-way vote toggle for the exact (voter, target) pair, target
a post or a reply.  With a nonzero target id naming an existing row: with no
current vote of the caller a fresh row with the requested polarity is
appended and returned; with a current vote of the same polarity that row is
deleted, `create_vote` returns no vote, and the route answers a removal
response carrying exactly the removed polarity; with a current vote of the
opposite polarity that row is updated in place — same id, same position, the
row count unchanged, no second row — and returned.  The first three parts
cover a post target, the last three a reply target. -/
theorem C1_vote_toggle (db : DB) (user pid rid : Nat) (vt : VoteType)
    (hpid : pid ≠ 0)
    (hpost : db.posts.any (fun p => p.id == pid) = true)
    (hrid : rid ≠ 0)
    (hreply : db.replies.any (fun r => r.id == rid) = true) :
    (get_user_vote db user (some pid) none = none →
      create_vote db user vt.value (some pid) none =
        .ok ({ db with
                 votes := db.votes ++
                   [{ id := db.next_vote_id, user_id := user, post_id := some pid,
                      reply_id := none, vote_type := vt }],
                 next_vote_id := db.next_vote_id + 1 },
             some { id := db.next_vote_id, user_id := user, post_id := some pid,
                    reply_id := none, vote_type := vt })) ∧
    (∀ v, get_user_vote db user (some pid) none = some v → v.vote_type = vt →
      create_vote db user vt.value (some pid) none =
        .ok ({ db with votes := db.votes.eraseP (fun w => w.id == v.id) }, none) ∧
      (vote_on_post db pid user vt).1 = .ok (.removed v.vote_type)) ∧
    (∀ v, get_user_vote db user (some pid) none = some v → v.vote_type ≠ vt →
      create_vote db user vt.value (some pid) none =
        .ok ({ db with votes := modifyFirst (fun w => w.id == v.id) (fun w => { w with vote_type := vt }) db.votes },
             some { v with vote_type := vt }) ∧
      (modifyFirst (fun w => w.id == v.id) (fun w => { w with vote_type := vt })
          db.votes).length = db.votes.length) ∧
    (get_user_vote db user none (some rid) = none →
      create_vote db user vt.value none (some rid) =
        .ok ({ db with
                 votes := db.votes ++
                   [{ id := db.next_vote_id, user_id := user, post_id := none,
                      reply_id := some rid, vote_type := vt }],
                 next_vote_id := db.next_vote_id + 1 },
             some { id := db.next_vote_id, user_id := user, post_id := none,
                    reply_id := some rid, vote_type := vt })) ∧
    (∀ v, get_user_vote db user none (some rid) = some v → v.vote_type = vt →
      create_vote db user vt.value none (some rid) =
        .ok ({ db with votes := db.votes.eraseP (fun w => w.id == v.id) }, none) ∧
      (vote_on_reply db rid user vt).1 = .ok (.removed v.vote_type)) ∧
    (∀ v, get_user_vote db user none (some rid) = some v → v.vote_type ≠ vt →
      create_vote db user vt.value none (some rid) =
        .ok ({ db with votes := modifyFirst (fun w => w.id == v.id) (fun w => { w with vote_type := vt }) db.votes },
             some { v with vote_type := vt }) ∧
      (modifyFirst (fun w => w.id == v.id) (fun w => { w with vote_type := vt })
          db.votes).length = db.votes.length) := by
  have htr : truthy (some pid) = true := by simp [truthy, hpid]
  have hpost' : db.posts.any (fun p => some p.id == some pid) = true := by
    obtain ⟨p, hp, he⟩ := List.any_eq_true.mp hpost
    exact List.any_eq_true.mpr ⟨p, hp, by simpa using he⟩
  have hpex : ∃ x ∈ db.posts, x.id = pid := by
    obtain ⟨p, hp, he⟩ := List.any_eq_true.mp hpost
    exact ⟨p, hp, by simpa using he⟩
  have htrR : truthy (some rid) = true := by simp [truthy, hrid]
  have hreply' : db.replies.any (fun r => some r.id == some rid) = true := by
    obtain ⟨r, hr, he⟩ := List.any_eq_true.mp hreply
    exact List.any_eq_true.mpr ⟨r, hr, by simpa using he⟩
  have hrex : ∃ x ∈ db.replies, x.id = rid := by
    obtain ⟨r, hr, he⟩ := List.any_eq_true.mp hreply
    exact ⟨r, hr, by simpa using he⟩
  refine ⟨?_, ?_, ?_, ?_, ?_, ?_⟩
  · intro hnone
    have hfind : db.votes.find? (fun v => v.user_id == user && v.post_id == some pid) = none := by
      rw [get_user_vote, if_pos htr] at hnone
      exact hnone
    have hnoc := List.find?_eq_none.mp hfind
    have hany1 : db.votes.any (fun w =>
        w.user_id == user && w.post_id == some pid &&
          ((some pid : Option Nat) != none)) = false := by
      refine List.any_eq_false.mpr ?_
      intro w hw
      have := hnoc w hw
      simpa using fun h1 h2 => this (by simp [h1, h2])
    have hany2 : db.votes.any (fun w =>
        w.user_id == user && w.reply_id == (none : Option Nat) &&
          ((none : Option Nat) != none)) = false := by
      simp
    simp only [create_vote, create_vote_at, VoteType.validation, get_user_vote,
      htr, if_pos, hfind, insertVote, hany1, hany2, VoteType.ofValue_value,
      Bool.false_eq_true, if_false]
    simp [truthy, hpid, hpost', Except.map]
    exact hpex
  · intro v hv hsame
    have hbeq : (v.vote_type.value == vt.value) = true := by
      rw [hsame]; simp
    have hcv : create_vote db user vt.value (some pid) none =
        .ok ({ db with votes := db.votes.eraseP (fun w => w.id == v.id) }, none) := by
      simp only [create_vote, create_vote_at, VoteType.validation,
        Bool.false_eq_true, if_false]
      simp only [truthy, hpid, hpost', hv]
      simp [hv, hbeq, truthy, hpid, hpost']
    refine ⟨hcv, ?_⟩
    rw [vote_on_post, if_neg (by simp [hpost]), hcv, hsame]
  · intro v hv hdiff
    have hbeq : (v.vote_type.value == vt.value) = false := by
      rw [VoteType.beq_value]
      exact beq_eq_false_iff_ne.mpr hdiff
    refine ⟨?_, modifyFirst_length _ _ _⟩
    simp only [create_vote, create_vote_at, VoteType.validation,
      Bool.false_eq_true, if_false]
    simp [hv, hbeq, truthy, hpid, hpost', VoteType.ofValue_value]
    exact hpex
  · intro hnone
    have hfindR : db.votes.find? (fun v => v.user_id == user && v.reply_id == some rid) = none := by
      rw [get_user_vote, if_neg (by simp [truthy]), if_pos htrR] at hnone
      exact hnone
    have hnoc := List.find?_eq_none.mp hfindR
    have hany1R : db.votes.any (fun w =>
        w.user_id == user && w.post_id == (none : Option Nat) &&
          ((none : Option Nat) != none)) = false := by
      simp
    have hany2R : db.votes.any (fun w =>
        w.user_id == user && w.reply_id == some rid &&
          ((some rid : Option Nat) != none)) = false := by
      refine List.any_eq_false.mpr ?_
      intro w hw
      have := hnoc w hw
      simpa using fun h1 h2 => this (by simp [h1, h2])
    simp only [create_vote, create_vote_at, VoteType.validation, get_user_vote,
      htrR, if_pos, hfindR, insertVote, hany1R, hany2R, VoteType.ofValue_value,
      Bool.false_eq_true, if_false]
    simp [truthy, hrid, hreply', hany1R, hany2R, Except.map]
    exact hrex
  · intro v hv hsame
    have hbeq : (v.vote_type.value == vt.value) = true := by
      rw [hsame]; simp
    have hcv : create_vote db user vt.value none (some rid) =
        .ok ({ db with votes := db.votes.eraseP (fun w => w.id == v.id) }, none) := by
      simp only [create_vote, create_vote_at, VoteType.validation,
        Bool.false_eq_true, if_false]
      simp only [truthy, hrid, hreply', hv]
      simp [hv, hbeq, truthy, hrid, hreply']
    refine ⟨hcv, ?_⟩
    rw [vote_on_reply, if_neg (by simp [hreply]), hcv, hsame]
  · intro v hv hdiff
    have hbeq : (v.vote_type.value == vt.value) = false := by
      rw [VoteType.beq_value]
      exact beq_eq_false_iff_ne.mpr hdiff
    refine ⟨?_, modifyFirst_length _ _ _⟩
    simp only [create_vote, create_vote_at, VoteType.validation,
      Bool.false_eq_true, if_false]
    simp [hv, hbeq, truthy, hrid, hreply', VoteType.ofValue_value]
    exact hrex

/-- C1 witness: all six branches exercised at one concrete store holding an
upvote by user 2 on post 1 and on reply 7 — fresh insert, removal and flip on
the post target, and the same three on the reply target. -/
theorem C1_vote_toggle_witness :
    create_vote toggleDB 1 VoteType.upvote.value (some 1) none =
      .ok ({ toggleDB with
               votes := toggleDB.votes ++
                 [{ id := 3, user_id := 1, post_id := some 1, reply_id := none,
                    vote_type := .upvote }],
               next_vote_id := 4 },
           some { id := 3, user_id := 1, post_id := some 1, reply_id := none,
                  vote_type := .upvote }) ∧
    (vote_on_post toggleDB 1 2 .upvote).1 = .ok (.removed .upvote) ∧
    create_vote toggleDB 2 VoteType.downvote.value (some 1) none =
      .ok ({ toggleDB with
               votes := [{ id := 1, user_id := 2, post_id := some 1, reply_id := none,
                           vote_type := .downvote },
                         { id := 2, user_id := 2, post_id := none, reply_id := some 7,
                           vote_type := .upvote }] },
           some { id := 1, user_id := 2, post_id := some 1, reply_id := none,
                  vote_type := .downvote }) ∧
    create_vote toggleDB 1 VoteType.downvote.value none (some 7) =
      .ok ({ toggleDB with
               votes := toggleDB.votes ++
                 [{ id := 3, user_id := 1, post_id := none, reply_id := some 7,
                    vote_type := .downvote }],
               next_vote_id := 4 },
           some { id := 3, user_id := 1, post_id := none, reply_id := some 7,
                  vote_type := .downvote }) ∧
    (vote_on_reply toggleDB 7 2 .upvote).1 = .ok (.removed .upvote) ∧
    create_vote toggleDB 2 VoteType.downvote.value none (some 7) =
      .ok ({ toggleDB with
               votes := [{ id := 1, user_id := 2, post_id := some 1, reply_id := none,
                           vote_type := .upvote },
                         { id := 2, user_id := 2, post_id := none, reply_id := some 7,
                           vote_type := .downvote }] },
           some { id := 2, user_id := 2, post_id := none, reply_id := some 7,
                  vote_type := .downvote }) := by
  refine ⟨?_, ?_, ?_, ?_, ?_, ?_⟩
  · have h := (C1_vote_toggle toggleDB 1 1 7 .upvote (by decide) (by decide)
      (by decide) (by decide)).1 (by decide)
    simpa using h
  · have h := ((C1_vote_toggle toggleDB 2 1 7 .upvote (by decide) (by decide)
      (by decide) (by decide)).2.1
      { id := 1, user_id := 2, post_id := some 1, reply_id := none, vote_type := .upvote }
      (by decide) rfl).2
    simpa using h
  · have h := ((C1_vote_toggle toggleDB 2 1 7 .downvote (by decide) (by decide)
      (by decide) (by decide)).2.2.1
      { id := 1, user_id := 2, post_id := some 1, reply_id := none, vote_type := .upvote }
      (by decide) (by decide)).1
    simpa using h
  · have h := (C1_vote_toggle toggleDB 1 1 7 .downvote (by decide) (by decide)
      (by decide) (by decide)).2.2.2.1 (by decide)
    simpa using h
  · have h := ((C1_vote_toggle toggleDB 2 1 7 .upvote (by decide) (by decide)
      (by decide) (by decide)).2.2.2.2.1
      { id := 2, user_id := 2, post_id := none, reply_id := some 7, vote_type := .upvote }
      (by decide) rfl).2
    simpa using h
  · have h := ((C1_vote_toggle toggleDB 2 1 7 .downvote (by decide) (by decide)
      (by decide) (by decide)).2.2.2.2.2
      { id := 2, user_id := 2, post_id := none, reply_id := some 7, vote_type := .upvote }
      (by decide) (by decide)).1
    simpa using h

/-! ## C6 -/

theorem modifyFirst_map {α β : Type} (g : α → β) (p : α → Bool) (f : α → α)
    (h : ∀ a, g (f a) = g a) :
    ∀ l : List α, (modifyFirst p f l).map g = l.map g := by
  intro l
  induction l with
  | nil => rfl
  | cons a as ih =>
    cases hpa : p a with
    | true => simp [modifyFirst, hpa, h a]
    | false => simp [modifyFirst, hpa, ih]

theorem modifyFirst_mem_of_find? {α : Type} (p : α → Bool) (f : α → α) :
    ∀ (l : List α) (y : α), l.find? p = some y → f y ∈ modifyFirst p f l := by
  intro l
  induction l with
  | nil => intro y hy; cases hy
  | cons a as ih =>
    intro y hy
    cases hpa : p a with
    | true =>
      rw [List.find?_cons_of_pos _ hpa] at hy
      cases hy
      simp [modifyFirst, hpa]
    | false =>
      rw [List.find?_cons_of_neg _ (by simp [hpa])] at hy
      rw [modifyFirst, if_neg (by simp [hpa])]
      exact List.mem_cons_of_mem a (ih y hy)

theorem mem_modifyFirst_of_find? {α : Type} (p : α → Bool) (f : α → α) :
    ∀ (l : List α) (y : α), l.find? p = some y →
      ∀ x ∈ modifyFirst p f l, x ∈ l ∨ x = f y := by
  intro l
  induction l with
  | nil => intro y hy; cases hy
  | cons a as ih =>
    intro y hy x hx
    cases hpa : p a with
    | true =>
      rw [List.find?_cons_of_pos _ hpa] at hy
      cases hy
      rw [modifyFirst, if_pos hpa] at hx
      rcases List.mem_cons.mp hx with rfl | hx
      · exact Or.inr rfl
      · exact Or.inl (List.mem_cons_of_mem a hx)
    | false =>
      rw [List.find?_cons_of_neg _ (by simp [hpa])] at hy
      rw [modifyFirst, if_neg (by simp [hpa])] at hx
      rcases List.mem_cons.mp hx with rfl | hx
      · exact Or.inl (List.mem_cons_self _ _)
      · rcases ih y hy x hx with h | h
        · exact Or.inl (List.mem_cons_of_mem a h)
        · exact Or.inr h

theorem mem_modifyFirst_of_not {α : Type} (p : α → Bool) (f : α → α) :
    ∀ (l : List α) (x : α), x ∈ l → p x = false → x ∈ modifyFirst p f l := by
  intro l
  induction l with
  | nil => intro x hx; cases hx
  | cons a as ih =>
    intro x hx hpx
    cases hpa : p a with
    | true =>
      rw [modifyFirst, if_pos hpa]
      rcases List.mem_cons.mp hx with rfl | hx
      · rw [hpa] at hpx; cases hpx
      · exact List.mem_cons_of_mem _ hx
    | false =>
      rw [modifyFirst, if_neg (by simp [hpa])]
      rcases List.mem_cons.mp hx with rfl | hx
      · exact List.mem_cons_self _ _
      · exact List.mem_cons_of_mem a (ih x hx hpx)

/-- After `delete_reply`, no row with the deleted id is live (reply ids
assumed unique). -/
theorem modifyFirst_delete_live (rid now : Nat) :
    ∀ rows : List Reply, (rows.map Reply.id).Nodup →
      ∀ x ∈ modifyFirst (fun r => r.id == rid && r.deleted_at == none)
          (fun r => { r with deleted_at := some now }) rows,
        x.id = rid → x.deleted_at ≠ none := by
  intro rows
  induction rows with
  | nil => intro _ x hx; cases hx
  | cons a as ih =>
    intro hnodup x hx hxid
    have hnodup' : (∀ y ∈ as, ¬y.id = a.id) ∧ (as.map Reply.id).Nodup := by
      simpa using hnodup
    cases hpa : (a.id == rid && a.deleted_at == none) with
    | true =>
      rw [modifyFirst, if_pos hpa] at hx
      rcases List.mem_cons.mp hx with rfl | hx
      · simp
      · have haid : a.id = rid := by
          have := (Bool.and_eq_true _ _).mp hpa
          simpa using this.1
        exact absurd (hxid.trans haid.symm) (hnodup'.1 x hx)
    | false =>
      rw [modifyFirst, if_neg (by simp [hpa])] at hx
      rcases List.mem_cons.mp hx with rfl | hx
      · intro hdel
        have : (x.id == rid && x.deleted_at == none) = true := by
          simp [hxid, hdel]
        rw [hpa] at this; cases this
      · exact ih hnodup'.2 x hx hxid

theorem mem_insertByCreated (r x : Reply) :
    ∀ l : List Reply, x ∈ insertByCreated r l ↔ x = r ∨ x ∈ l := by
  intro l
  induction l with
  | nil => simp [insertByCreated]
  | cons a as ih =>
    by_cases hle : a.created_at ≤ r.created_at
    · rw [insertByCreated, if_pos hle]
      simp only [List.mem_cons, ih]
      tauto
    · rw [insertByCreated, if_neg hle]
      simp only [List.mem_cons]

theorem mem_orderByCreated_aux (x : Reply) :
    ∀ (l acc : List Reply),
      (x ∈ l.foldl (fun acc r => insertByCreated r acc) acc ↔ x ∈ acc ∨ x ∈ l) := by
  intro l
  induction l with
  | nil => simp
  | cons a as ih =>
    intro acc
    rw [List.foldl_cons, ih, mem_insertByCreated]
    simp only [List.mem_cons]
    tauto

theorem mem_orderByCreated (x : Reply) (l : List Reply) :
    x ∈ orderByCreated l ↔ x ∈ l := by
  rw [orderByCreated, mem_orderByCreated_aux]
  simp

/-- The stable ordering step keeps the strip-equal relationship between the
parent lookups of two stores (lookups ignore `deleted_at`). -/
theorem ancestorsF_map_strip (db1 db2 : DB)
    (h : db1.replies.map stripDel = db2.replies.map stripDel) :
    ∀ (fuel : Nat) (r r' : Reply), stripDel r = stripDel r' →
      (ancestorsF db1 fuel r).map stripDel = (ancestorsF db2 fuel r').map stripDel := by
  have hpar : ∀ k, (db1.replies.find? (fun q => q.id == k)).map stripDel =
      (db2.replies.find? (fun q => q.id == k)).map stripDel := by
    intro k
    have hcomp : ((fun q => q.id == k) ∘ stripDel) = (fun q => q.id == k) := rfl
    have e1 := List.find?_map (p := fun q => q.id == k) stripDel db1.replies
    have e2 := List.find?_map (p := fun q => q.id == k) stripDel db2.replies
    rw [hcomp] at e1 e2
    rw [← e1, ← e2, h]
  intro fuel
  induction fuel with
  | zero => intro r r' _; rfl
  | succ fuel ih =>
    intro r r' hrr
    have hp : r.parent_id = r'.parent_id := by
      have := congrArg Reply.parent_id hrr
      simpa [stripDel] using this
    have hpo : (parentOf db1 r).map stripDel = (parentOf db2 r').map stripDel := by
      simp only [parentOf, ← hp]
      cases r.parent_id with
      | none => rfl
      | some k => exact hpar k
    simp only [ancestorsF]
    cases h1 : parentOf db1 r with
    | none =>
      cases h2 : parentOf db2 r' with
      | none => rfl
      | some p2 => rw [h1, h2] at hpo; cases hpo
    | some p1 =>
      cases h2 : parentOf db2 r' with
      | none => rw [h1, h2] at hpo; cases hpo
      | some p2 =>
        rw [h1, h2] at hpo
        have hps : stripDel p1 = stripDel p2 := by simpa using hpo
        simp only [List.map_cons]
        rw [ih p1 p2 hps, hps]

/-- C6: soft deletion is a one-field frame.  With unique reply ids and a live
row `r0` carrying the requested id: the call reports success; posts, votes
and users are untouched; the reply rows keep their count and, stripped of the
soft-delete timestamp, are unchanged — content, parent pointers and order
survive; the marked row is present; every row of the result is an old row or
the marked row; rows with other ids — in particular all children — survive
as they were; no flat listing of any post still shows the deleted id; and the
ancestors relation of every reply is unchanged up to the soft-delete
timestamp.  Finally, in the concrete scenario post P, reply A, reply B under
A: deleting A hides it from the flat listing while the ancestors of B still
consist of exactly A (content preserved, now marked deleted). -/
theorem C6_soft_delete_frame (db : DB) (rid now : Nat) (r0 : Reply)
    (hnodup : (idsOf db.replies).Nodup)
    (hfind : db.replies.find? (fun r => r.id == rid && r.deleted_at == none) = some r0) :
    (delete_reply db rid now).1 = true ∧
    (delete_reply db rid now).2.posts = db.posts ∧
    (delete_reply db rid now).2.votes = db.votes ∧
    (delete_reply db rid now).2.users = db.users ∧
    (delete_reply db rid now).2.replies.length = db.replies.length ∧
    (delete_reply db rid now).2.replies.map stripDel = db.replies.map stripDel ∧
    { r0 with deleted_at := some now } ∈ (delete_reply db rid now).2.replies ∧
    (∀ q ∈ (delete_reply db rid now).2.replies,
      q ∈ db.replies ∨ q = { r0 with deleted_at := some now }) ∧
    (∀ q ∈ db.replies, q.id ≠ rid → q ∈ (delete_reply db rid now).2.replies) ∧
    (∀ pid skip limit,
      rid ∉ (get_post_replies (delete_reply db rid now).2 pid skip limit).map Reply.id) ∧
    (∀ x x', stripDel x = stripDel x' →
      (ancestors (delete_reply db rid now).2 x).map stripDel =
        (ancestors db x').map stripDel) ∧
    (get_post_replies (delete_reply scenarioDB 1 9).2 1 0 10).map Reply.id = [2] ∧
    ancestors (delete_reply scenarioDB 1 9).2 (mkReply 2 (some 1) 2) =
      [{ mkReply 1 none 1 with deleted_at := some 9 }] := by
  have hdel : delete_reply db rid now =
      (true, { db with replies := modifyFirst (fun r => r.id == rid && r.deleted_at == none) (fun r => { r with deleted_at := some now }) db.replies }) := by
    rw [delete_reply, get_reply_by_id, hfind]
  have hdel2 : (delete_reply db rid now).2.replies =
      modifyFirst (fun r => r.id == rid && r.deleted_at == none)
        (fun r => { r with deleted_at := some now }) db.replies := by
    rw [hdel]
  have hlen : (delete_reply db rid now).2.replies.length = db.replies.length := by
    rw [hdel2]; exact modifyFirst_length _ _ _
  have hmap : (delete_reply db rid now).2.replies.map stripDel =
      db.replies.map stripDel := by
    rw [hdel2]
    exact modifyFirst_map stripDel (fun r => r.id == rid && r.deleted_at == none)
      (fun r => { r with deleted_at := some now }) (fun a => rfl) db.replies
  refine ⟨by rw [hdel], by rw [hdel], by rw [hdel], by rw [hdel], hlen, hmap,
    ?_, ?_, ?_, ?_, ?_, by decide, by decide⟩
  · rw [hdel2]
    exact modifyFirst_mem_of_find? _ _ _ r0 hfind
  · intro q hq
    rw [hdel2] at hq
    exact mem_modifyFirst_of_find? _ _ _ r0 hfind q hq
  · intro q hq hqid
    rw [hdel2]
    exact mem_modifyFirst_of_not _ _ _ q hq (by simp [hqid])
  · intro pid skip limit hmem
    obtain ⟨y, hy, hyid⟩ := List.mem_map.mp hmem
    have hy1 : y ∈ repliesSorted (delete_reply db rid now).2 pid :=
      List.mem_of_mem_drop (List.mem_of_mem_take hy)
    have hy2 := (mem_orderByCreated y _).mp hy1
    have hy3 := List.mem_filter.mp hy2
    have hylive : y.deleted_at = none := by
      have := hy3.2
      simp only [Bool.and_eq_true, beq_iff_eq] at this
      exact this.2
    have : y.deleted_at ≠ none := by
      refine modifyFirst_delete_live rid now db.replies (by simpa [idsOf] using hnodup)
        y ?_ hyid
      have := hy3.1
      rwa [hdel2] at this
    exact this hylive
  · intro x x' hxx
    rw [ancestors, ancestors, hlen]
    exact ancestorsF_map_strip _ _ hmap _ x x' hxx

/-- C6 witness: the frame at the concrete scenario store. -/
theorem C6_soft_delete_frame_witness :
    (delete_reply scenarioDB 1 9).1 = true ∧
    (delete_reply scenarioDB 1 9).2.replies.map stripDel =
      scenarioDB.replies.map stripDel ∧
    (ancestors (delete_reply scenarioDB 1 9).2 (mkReply 2 (some 1) 2)).map stripDel =
      (ancestors scenarioDB (mkReply 2 (some 1) 2)).map stripDel := by
  have h := C6_soft_delete_frame scenarioDB 1 9 (mkReply 1 none 1) (by decide) (by decide)
  exact ⟨h.1, h.2.2.2.2.2.1, h.2.2.2.2.2.2.2.2.2.2.1 _ _ rfl⟩

/-! ## C5 -/

theorem pairwise_insertByCreated (r : Reply) :
    ∀ l : List Reply, List.Pairwise (fun a b => a.created_at ≤ b.created_at) l →
      List.Pairwise (fun a b => a.created_at ≤ b.created_at) (insertByCreated r l) := by
  intro l
  induction l with
  | nil => intro _; simp [insertByCreated]
  | cons x xs ih =>
    intro h
    rcases List.pairwise_cons.mp h with ⟨hx, hxs⟩
    by_cases hle : x.created_at ≤ r.created_at
    · rw [insertByCreated, if_pos hle]
      refine List.pairwise_cons.mpr ⟨?_, ih hxs⟩
      intro y hy
      rcases (mem_insertByCreated r y xs).mp hy with rfl | hy
      · exact hle
      · exact hx y hy
    · rw [insertByCreated, if_neg hle]
      refine List.pairwise_cons.mpr ⟨?_, h⟩
      intro y hy
      rcases List.mem_cons.mp hy with rfl | hy
      · exact Nat.le_of_not_le hle
      · exact Nat.le_trans (Nat.le_of_not_le hle) (hx y hy)

theorem pairwise_orderByCreated_aux :
    ∀ (l acc : List Reply),
      List.Pairwise (fun a b => a.created_at ≤ b.created_at) acc →
      List.Pairwise (fun a b => a.created_at ≤ b.created_at)
        (l.foldl (fun acc r => insertByCreated r acc) acc) := by
  intro l
  induction l with
  | nil => intro acc h; simpa using h
  | cons a as ih =>
    intro acc h
    rw [List.foldl_cons]
    exact ih _ (pairwise_insertByCreated a acc h)

theorem pairwise_orderByCreated (l : List Reply) :
    List.Pairwise (fun a b => a.created_at ≤ b.created_at) (orderByCreated l) :=
  pairwise_orderByCreated_aux l [] (by simp)

theorem flattenF_nil (cm : Nat → List Reply) (f : Nat) : flattenF cm f [] = [] := by
  cases f <;> simp [flattenF]

theorem flattenF_zero_cons (cm : Nat → List Reply) (r : Reply) (rs : List Reply) :
    flattenF cm 0 (r :: rs) = r :: flattenF cm 0 rs := by
  simp [flattenF]

theorem flattenF_succ_cons (cm : Nat → List Reply) (f : Nat) (r : Reply) (rs : List Reply) :
    flattenF cm (f+1) (r :: rs) =
      (r :: flattenF cm f (cm r.id)) ++ flattenF cm (f+1) rs := by
  simp [flattenF]

theorem foldl_cacheStep (present : Nat → Bool) :
    ∀ (l : List Reply) (acc : Nat → List Reply) (k : Nat),
      l.foldl (cacheStep present) acc k =
        acc k ++ l.filter (fun r => r.parent_id == some k && present k) := by
  intro l
  induction l with
  | nil => intro acc k; simp
  | cons r rs ih =>
    intro acc k
    rw [List.foldl_cons, ih]
    cases hp : r.parent_id with
    | none =>
      rw [List.filter_cons_of_neg (by simp [hp])]
      simp [cacheStep, hp]
    | some p =>
      by_cases hpr : present p = true
      · by_cases hkp : k = p
        · subst hkp
          rw [List.filter_cons_of_pos (by simp [hp, hpr])]
          simp [cacheStep, hp, hpr, List.append_assoc]
        · have hne : ¬((r.parent_id == some k && present k) = true) := by
            simp only [hp, Bool.and_eq_true, beq_iff_eq, Option.some.injEq]
            rintro ⟨h1, h2⟩
            exact hkp h1.symm
          simp [List.filter_cons, hne, cacheStep, hp, hpr, hkp]
          rw [if_neg (fun h => hkp h.1.symm)]
      · have hpr' : present p = false := by
          simpa using hpr
        have hne : ¬((r.parent_id == some k && present k) = true) := by
          simp only [hp, Bool.and_eq_true, beq_iff_eq, Option.some.injEq]
          rintro ⟨h1, h2⟩
          subst h1
          rw [hpr'] at h2
          cases h2
        simp [List.filter_cons, hne, cacheStep, hp, hpr']
        rw [if_neg]
        rintro ⟨h1, h2⟩
        subst h1
        rw [hpr'] at h2
        exact Bool.noConfusion h2

theorem buildCaches_eq (l : List Reply) (k : Nat) :
    buildCaches l k =
      if l.any (fun q => q.id == k) then specChildren l k else [] := by
  rw [buildCaches, foldl_cacheStep]
  cases hpres : l.any (fun q => q.id == k) with
  | false => simp [hpres]
  | true => simp [specChildren, hpres]

theorem mem_buildCaches (l : List Reply) (k : Nat) :
    ∀ c ∈ buildCaches l k, c ∈ l ∧ c.parent_id = some k := by
  intro c hc
  rw [buildCaches_eq] at hc
  by_cases hpres : l.any (fun q => q.id == k) = true
  · rw [if_pos hpres] at hc
    have := List.mem_filter.mp hc
    exact ⟨this.1, by simpa using this.2⟩
  · rw [if_neg hpres] at hc
    cases hc

theorem flattenF_congr_agree (cm1 cm2 : Nat → List Reply) (S : List Reply)
    (hagree : ∀ r ∈ S, cm1 r.id = cm2 r.id)
    (hclosed : ∀ r ∈ S, ∀ c ∈ cm1 r.id, c ∈ S) :
    ∀ (f : Nat) (xs : List Reply), (∀ r ∈ xs, r ∈ S) →
      flattenF cm1 f xs = flattenF cm2 f xs := by
  intro f
  induction f with
  | zero =>
    intro xs hxs
    induction xs with
    | nil => rw [flattenF_nil, flattenF_nil]
    | cons r rs ihr =>
      rw [flattenF_zero_cons, flattenF_zero_cons]
      exact congrArg (r :: ·) (ihr fun q hq => hxs q (List.mem_cons_of_mem _ hq))
  | succ f ih =>
    intro xs hxs
    induction xs with
    | nil => rw [flattenF_nil, flattenF_nil]
    | cons r rs ihr =>
      have hr := hxs r (List.mem_cons_self _ _)
      rw [flattenF_succ_cons, flattenF_succ_cons]
      have h1 : flattenF cm1 f (cm1 r.id) = flattenF cm2 f (cm2 r.id) := by
        have := ih (cm1 r.id) (fun c hc => hclosed r hr c hc)
        rw [this, hagree r hr]
      rw [h1, ihr fun q hq => hxs q (List.mem_cons_of_mem _ hq)]

theorem flattenF_fuel_congr (cm : Nat → List Reply) (S : List Reply)
    (rank : Reply → Nat) (N : Nat)
    (hcm : ∀ r ∈ S, ∀ c ∈ cm r.id, c ∈ S ∧ rank r < rank c)
    (hN : ∀ r ∈ S, rank r < N) :
    ∀ (f g : Nat) (xs : List Reply),
      (∀ r ∈ xs, r ∈ S ∧ N - rank r ≤ f ∧ N - rank r ≤ g) →
      flattenF cm f xs = flattenF cm g xs := by
  intro f
  induction f with
  | zero =>
    intro g xs hxs
    cases xs with
    | nil => rw [flattenF_nil, flattenF_nil]
    | cons r rs =>
      obtain ⟨hrS, hf, _⟩ := hxs r (List.mem_cons_self _ _)
      have := hN r hrS
      omega
  | succ f ih =>
    intro g xs hxs
    induction xs with
    | nil => rw [flattenF_nil, flattenF_nil]
    | cons r rs ihr =>
      obtain ⟨hrS, hf, hg⟩ := hxs r (List.mem_cons_self _ _)
      have hrN := hN r hrS
      obtain ⟨g', rfl⟩ : ∃ g', g = g' + 1 := by
        cases g with
        | zero => omega
        | succ g' => exact ⟨g', rfl⟩
      rw [flattenF_succ_cons, flattenF_succ_cons]
      have hkids : flattenF cm f (cm r.id) = flattenF cm g' (cm r.id) := by
        refine ih g' (cm r.id) ?_
        intro c hc
        obtain ⟨hcS, hrank⟩ := hcm r hrS c hc
        have hcN := hN c hcS
        exact ⟨hcS, by omega, by omega⟩
      rw [hkids, ihr fun q hq => hxs q (List.mem_cons_of_mem _ hq)]

/-- C5: the threaded listing is the pre-order flattening, over the
id-to-children map of the flat chronological listing, with skip and limit
applied only to the flattened sequence.  Concretely: the route result is the
drop-take slice of the spec-side pre-order flattening; with parents listed
before their children the flattening is fuel-insensitive at or beyond the
list length (the recursion visits every subtree completely); and the flat
listing underneath is chronologically sorted. -/
theorem C5_threaded_pre_order (db : DB) (pid skip limit : Nat)
    (horder : ParentsBeforeChildren (repliesSorted db pid)) :
    get_post_replies_threaded db pid skip limit =
      ((threadedSpec (repliesSorted db pid)).drop skip).take limit ∧
    (∀ f, (repliesSorted db pid).length ≤ f →
      flattenF (buildCaches (repliesSorted db pid)) f
          ((repliesSorted db pid).filter (fun r => r.parent_id == none)) =
        get_post_replies_threaded_full db pid) ∧
    List.Pairwise (fun a b => a.created_at ≤ b.created_at) (repliesSorted db pid) := by
  set l := repliesSorted db pid with hl
  have hroots : ∀ r ∈ l.filter (fun r => r.parent_id == none), r ∈ l :=
    fun r hr => (List.mem_filter.mp hr).1
  refine ⟨?_, ?_, pairwise_orderByCreated _⟩
  · have hfull : get_post_replies_threaded_full db pid = threadedSpec l := by
      rw [get_post_replies_threaded_full, threadedSpec]
      refine flattenF_congr_agree (buildCaches l) (specChildren l) l ?_ ?_ _ _ hroots
      · intro r hr
        rw [buildCaches_eq, if_pos (List.any_eq_true.mpr ⟨r, hr, by simp⟩)]
      · intro r hr c hc
        exact (mem_buildCaches l r.id c hc).1
    rw [get_post_replies_threaded, hfull]
  · intro f hf
    have := flattenF_fuel_congr (buildCaches l) l (fun r => l.indexOf r) l.length
      (fun r hr c hc => by
        obtain ⟨hcl, hcp⟩ := mem_buildCaches l r.id c hc
        exact ⟨hcl, horder r hr c hcl hcp⟩)
      (fun r hr => List.indexOf_lt_length.mpr hr)
      f l.length (l.filter (fun r => r.parent_id == none))
      (fun r hr => ⟨hroots r hr, by
        have := List.indexOf_lt_length.mpr (hroots r hr)
        omega, by
        have := List.indexOf_lt_length.mpr (hroots r hr)
        omega⟩)
    rw [get_post_replies_threaded_full]
    exact this

/-- C5 witness: the pre-order equality, fuel insensitivity at fuel 7, and the
sortedness conjunct at the orphan store. -/
theorem C5_threaded_pre_order_witness :
    get_post_replies_threaded orphanDB 1 0 100 =
      ((threadedSpec (repliesSorted orphanDB 1)).drop 0).take 100 ∧
    flattenF (buildCaches (repliesSorted orphanDB 1)) 7
        ((repliesSorted orphanDB 1).filter (fun r => r.parent_id == none)) =
      get_post_replies_threaded_full orphanDB 1 := by
  have h := C5_threaded_pre_order orphanDB 1 0 100 (by decide)
  exact ⟨h.1, h.2.1 7 (by decide)⟩

/-! ## C9 -/

theorem flatten_all_rooted (l : List Reply) :
    ∀ (f : Nat) (xs : List Reply), (∀ r ∈ xs, r ∈ l ∧ RootedIn l r) →
      ∀ x ∈ flattenF (buildCaches l) f xs, RootedIn l x := by
  intro f
  induction f with
  | zero =>
    intro xs hxs
    induction xs with
    | nil => intro x hx; rw [flattenF_nil] at hx; cases hx
    | cons r rs ihr =>
      intro x hx
      rw [flattenF_zero_cons] at hx
      rcases List.mem_cons.mp hx with rfl | hx
      · exact (hxs x (List.mem_cons_self _ _)).2
      · exact ihr (fun q hq => hxs q (List.mem_cons_of_mem _ hq)) x hx
  | succ f ih =>
    intro xs hxs
    induction xs with
    | nil => intro x hx; rw [flattenF_nil] at hx; cases hx
    | cons r rs ihr =>
      intro x hx
      rw [flattenF_succ_cons] at hx
      obtain ⟨hrl, hrr⟩ := hxs r (List.mem_cons_self _ _)
      rcases List.mem_append.mp hx with hx | hx
      · rcases List.mem_cons.mp hx with rfl | hx
        · exact hrr
        · refine ih (buildCaches l r.id) ?_ x hx
          intro c hc
          obtain ⟨hcl, hcp⟩ := mem_buildCaches l r.id c hc
          exact ⟨hcl, RootedIn.child c r hcl hrl hcp hrr⟩
      · exact ihr (fun q hq => hxs q (List.mem_cons_of_mem _ hq)) x hx

/-- C9: a reply whose parent was soft-deleted is omitted from the threaded
listing together with its whole subtree, though still present in the flat
listing.  Every emitted reply is rooted inside the flat listing; a listed
reply whose parent id is not listed (for instance because the parent is
soft-deleted) is not rooted; an unrooted reply appears in no threaded page —
it is neither attached to a surviving node nor promoted to root level — yet
appears in the flat listing; and unrootedness propagates to all children, so
the whole subtree is omitted. -/
theorem C9_orphaned_subtree_omitted (db : DB) (pid : Nat)
    (hnodup : (idsOf (repliesSorted db pid)).Nodup) :
    (∀ x ∈ get_post_replies_threaded_full db pid, RootedIn (repliesSorted db pid) x) ∧
    (∀ r ∈ repliesSorted db pid,
      (∀ q ∈ repliesSorted db pid, some q.id ≠ r.parent_id) → r.parent_id ≠ none →
        ¬ RootedIn (repliesSorted db pid) r) ∧
    (∀ r ∈ repliesSorted db pid, ¬ RootedIn (repliesSorted db pid) r →
      (∀ skip limit, r ∉ get_post_replies_threaded db pid skip limit) ∧
      r ∈ get_post_replies db pid 0 (repliesSorted db pid).length) ∧
    (∀ r ∈ repliesSorted db pid, ¬ RootedIn (repliesSorted db pid) r →
      ∀ c ∈ repliesSorted db pid, c.parent_id = some r.id →
        ¬ RootedIn (repliesSorted db pid) c) := by
  set l := repliesSorted db pid with hl
  have hall : ∀ x ∈ get_post_replies_threaded_full db pid, RootedIn l x := by
    rw [get_post_replies_threaded_full]
    refine flatten_all_rooted l l.length _ ?_
    intro r hr
    have hm := List.mem_filter.mp hr
    exact ⟨hm.1, RootedIn.root r hm.1 (by simpa using hm.2)⟩
  refine ⟨hall, ?_, ?_, ?_⟩
  · intro r _ hq hne hroot
    cases hroot with
    | root _ _ hp => exact hne hp
    | child _ p _ hpl hpar _ => exact hq p hpl hpar.symm
  · intro r hr hnroot
    constructor
    · intro skip limit hmem
      rw [get_post_replies_threaded] at hmem
      exact hnroot (hall r (List.mem_of_mem_drop (List.mem_of_mem_take hmem)))
    · rw [get_post_replies, ← hl, List.drop_zero, List.take_length]
      exact hr
  · intro r hr hnroot c _ hcp hroot
    cases hroot with
    | root _ _ hp => rw [hcp] at hp; cases hp
    | child _ p hcl hpl hpar hprooted =>
      rw [hcp] at hpar
      have hpid : p.id = r.id := (Option.some.inj hpar).symm
      have : p = r := List.inj_on_of_nodup_map (by simpa [idsOf] using hnodup) hpl hr hpid
      exact hnroot (this ▸ hprooted)

/-- C9 witness: in the orphan store (reply 1 soft-deleted, reply 2 under it,
reply 3 under reply 2, reply 4 a live root), reply 2 appears in the flat
listing yet neither reply 2 nor reply 3 appears in any threaded page. -/
theorem C9_orphaned_subtree_omitted_witness :
    mkReply 2 (some 1) 2 ∈ get_post_replies orphanDB 1 0 3 ∧
    (∀ skip limit, mkReply 2 (some 1) 2 ∉ get_post_replies_threaded orphanDB 1 skip limit) ∧
    (∀ skip limit, mkReply 3 (some 2) 3 ∉ get_post_replies_threaded orphanDB 1 skip limit) := by
  have h := C9_orphaned_subtree_omitted orphanDB 1 (by decide)
  have hB : ¬ RootedIn (repliesSorted orphanDB 1) (mkReply 2 (some 1) 2) :=
    h.2.1 _ (by decide) (by decide) (by decide)
  have hC : ¬ RootedIn (repliesSorted orphanDB 1) (mkReply 3 (some 2) 3) :=
    h.2.2.2 _ (by decide) hB _ (by decide) rfl
  refine ⟨?_, fun skip limit => (h.2.2.1 _ (by decide) hB).1 skip limit,
    fun skip limit => (h.2.2.1 _ (by decide) hC).1 skip limit⟩
  exact (h.2.2.1 _ (by decide) hB).2

end Chatroom
